import Mathlib

set_option maxRecDepth 8192

/-!
Shallow embedding of the video ingestion/transcoding core of the
`kalesh` video-sharing backend, and proofs of the specified properties.

Source files embedded:
  * `app/utils/video_processing.py` — tier table, height/duration probes,
    HLS stream creation and master-manifest construction;
  * `app/utils/video_queue.py` — the ingestion worker and its per-job
    status transitions on the video metadata record;
  * `app/utils/storage.py` — best-effort blob deletion (`delete_file`,
    `delete_hls_content`) and the published master-manifest URL shape;
  * `app/utils/deletion_queue.py` — the deletion worker;
  * `app/schemas.py` / `app/routers/videos.py` — the HTML-tag sanitizer
    `re.sub(r'<[^>]*>', '', v)` applied to titles and descriptions.

External effects (subprocess runs, HTTP, S3, the document store) are
modelled by explicit outcome parameters; the Python string operations
used by the code (`split`, `strip`, `replace`, `int`, `float`) are
embedded as structurally recursive functions on `List Char` so that
everything evaluates.
-/

namespace Kalesh

/-- Python `str.split(sep)` for a one-character separator: splits on every
occurrence, keeping empty pieces (`"".split` gives one empty piece). -/
def splitOnChar (c : Char) : List Char → List (List Char)
  | [] => [[]]
  | x :: xs =>
    if x = c then [] :: splitOnChar c xs
    else match splitOnChar c xs with
      | [] => [[x]]
      | h :: t => (x :: h) :: t

/-- Python whitespace test used by `str.strip()`. -/
def isPySpace (c : Char) : Bool :=
  c = ' ' || c = '\t' || c = '\n' || c = '\r' || c = '\x0b' || c = '\x0c'

/-- Python `str.strip()`: drop whitespace from both ends. -/
def stripChars (l : List Char) : List Char :=
  ((l.dropWhile isPySpace).reverse.dropWhile isPySpace).reverse

/-- Python `int(s)` on a plain digit string: `some` value on a non-empty
all-digit string, `none` (the caught `ValueError`) otherwise. -/
def digitsToNat? (l : List Char) : Option Nat :=
  if l ≠ [] ∧ l.all Char.isDigit then
    some (l.foldl (fun a c => a * 10 + (c.toNat - 48)) 0)
  else none

/-- Python `float(s)` on the decimal strings ffprobe emits: an optional
single `'.'` between digit runs; anything else is unparsable (`none`). -/
def parseFloat? (l : List Char) : Option Rat :=
  match splitOnChar '.' l with
  | [w] => (digitsToNat? w).map (fun n => (n : Rat))
  | [w, f] =>
    match digitsToNat? w, digitsToNat? f with
    | some a, some b => some ((a : Rat) + (b : Rat) / ((10 : Rat) ^ f.length))
    | _, _ => none
  | _ => none

/-- Python `s.replace('k', '000')` as used on bitrate strings. -/
def replaceK : List Char → List Char
  | [] => []
  | c :: r => if c = 'k' then '0' :: '0' :: '0' :: replaceK r else c :: replaceK r

/-- Outcome of one `subprocess.run(..., timeout=...)` invocation:
either the wall-clock timeout fired (Python raises `TimeoutExpired`),
or the process finished with an exit code and captured stdout. -/
structure RunResult where
  timedOut : Bool
  returncode : Int
  stdout : String
deriving DecidableEq

/-- One quality tier of `VideoProcessor.get_qualities` (values from
`app/config.py` defaults, which the getattr defaults mirror). -/
structure Quality where
  width : Nat
  height : Nat
  bitrate : String
  audio_bitrate : String
  crf : Nat
deriving DecidableEq

def q1080 : Quality := ⟨1920, 1080, "3500k", "128k", 24⟩
def q720 : Quality := ⟨1280, 720, "1800k", "96k", 25⟩
def q480 : Quality := ⟨854, 480, "900k", "96k", 26⟩
def q360 : Quality := ⟨640, 360, "500k", "64k", 27⟩

/-- `VideoProcessor.get_qualities`: the fixed ordered tier table
(dict insertion order: descending resolution). -/
def get_qualities : List (String × Quality) :=
  [("1080p", q1080), ("720p", q720), ("480p", q480), ("360p", q360)]

/-- `VideoProcessor.get_video_height`: run ffprobe; on timeout, non-zero
exit, empty stripped stdout, or an `int()` parse failure, return `none`
(every exception is caught and turned into `None`). -/
def get_video_height (r : RunResult) : Option Nat :=
  if r.timedOut then none
  else if r.returncode = 0 ∧ stripChars r.stdout.data ≠ [] then
    digitsToNat? (stripChars r.stdout.data)
  else none

/-- `VideoProcessor.get_video_duration`: same shape with `float()`. -/
def get_video_duration (r : RunResult) : Option Rat :=
  if r.timedOut then none
  else if r.returncode = 0 ∧ stripChars r.stdout.data ≠ [] then
    parseFloat? (stripChars r.stdout.data)
  else none

/-- One emitted HLS media segment file. -/
structure Segment where
  filename : String
  data : List Nat
deriving DecidableEq

/-- Per-tier entry of `hls_data['playlists']`. -/
structure TierData where
  playlist : String
  segments : List Segment
deriving DecidableEq

/-- The value `create_hls_streams` returns on success. -/
structure HlsData where
  master_playlist : String
  playlists : List (String × TierData)
deriving DecidableEq

/-- Outcome of the per-tier ffmpeg encode invocation: exit code 0 with the
written playlist and segment files, a non-zero exit code, or a raised
exception (`subprocess.TimeoutExpired` when the encode timeout fires). -/
inductive TierOutcome where
  | ok (playlist : String) (segments : List Segment)
  | nonzeroExit
  | raised (msg : String)
deriving DecidableEq

def TierOutcome.isOk : TierOutcome → Bool
  | .ok _ _ => true
  | _ => false

def TierOutcome.isRaised : TierOutcome → Bool
  | .raised _ => true
  | _ => false

/-- The tier filter `video_height and video_height >= settings['height']`
of `create_hls_streams` (a `None` or zero height is falsy). -/
def tierKeep (video_height : Option Nat) (p : String × Quality) : Bool :=
  match video_height with
  | some h => decide (h ≠ 0) && decide (p.2.height ≤ h)
  | none => false

/-- The `available_qualities` selection of `create_hls_streams`: the tiers
passing the filter; if nothing qualifies, fall back to `360p`. -/
def available_qualities (video_height : Option Nat) : List (String × Quality) :=
  let avail := get_qualities.filter (tierKeep video_height)
  if avail.isEmpty then [("360p", q360)] else avail

/-- `int(settings_dict['bitrate'].replace('k', '000'))` — the BANDWIDTH
value of a master-playlist entry (the parse succeeds on every configured
bitrate string). -/
def bandwidth (q : Quality) : Nat :=
  (digitsToNat? (replaceK q.bitrate.data)).getD 0

/-- The `#EXT-X-STREAM-INF` line appended per successful tier. -/
def streamInfLine (q : Quality) : String :=
  "#EXT-X-STREAM-INF:BANDWIDTH=" ++ toString (bandwidth q) ++
    ",RESOLUTION=" ++ toString q.width ++ "x" ++ toString q.height

/-- The quality loop of `create_hls_streams`: each tier's encode either
succeeds (tier recorded, two master-playlist lines appended), fails with
a non-zero exit (tier skipped), or raises — a raise aborts the whole
function through the outer `except`, discarding earlier tiers (`none`). -/
def runTiers (env : String → TierOutcome) :
    List (String × Quality) → Option (List (String × TierData) × List String)
  | [] => some ([], [])
  | (name, q) :: rest =>
    match env name with
    | .raised _ => none
    | .nonzeroExit => runTiers env rest
    | .ok pl segs =>
      match runTiers env rest with
      | none => none
      | some (plists, lines) =>
        some ((name, ⟨pl, segs⟩) :: plists,
          streamInfLine q :: (name ++ "/playlist.m3u8") :: lines)

/-- `VideoProcessor.create_hls_streams`, parameterised by the height-probe
result and the per-tier encode outcomes. Returns `none` when an exception
escaped the loop or when `hls_data['playlists']` ended up empty. -/
def create_hls_streams (heightProbe : RunResult) (env : String → TierOutcome) :
    Option HlsData :=
  match runTiers env (available_qualities (get_video_height heightProbe)) with
  | none => none
  | some (plists, lines) =>
    if plists.isEmpty then none
    else some ⟨String.intercalate "\n" ("#EXTM3U" :: "#EXT-X-VERSION:3" :: lines), plists⟩

/-- The tiers of a selection whose encode invocation returns exit code 0. -/
def successfulTiers (env : String → TierOutcome) (ts : List (String × Quality)) :
    List (String × Quality) :=
  ts.filter fun p => (env p.1).isOk

/-- The `playlists` entry produced for a tier when its encode succeeded. -/
def okData (env : String → TierOutcome) (p : String × Quality) :
    Option (String × TierData) :=
  match env p.1 with
  | .ok pl segs => some (p.1, ⟨pl, segs⟩)
  | _ => none

/-- Skip to just past the first `'>'`, as `re` does after matching a tag. -/
def dropThroughGt : List Char → List Char
  | [] => []
  | c :: rest => if c = '>' then rest else dropThroughGt rest

theorem dropThroughGt_length_le (l : List Char) : (dropThroughGt l).length ≤ l.length := by
  induction l with
  | nil => simp [dropThroughGt]
  | cons c rest ih =>
    simp only [dropThroughGt]
    split
    · simp
    · exact Nat.le_succ_of_le ih

/-- `re.sub(r'<[^>]*>', '', s)` on the character list of `s`: at a `'<'`
the pattern matches exactly when some `'>'` occurs later (the greedy
`[^>]*` runs up to the first one), and scanning resumes after it;
any other character, or a `'<'` with no later `'>'`, is kept. -/
def removeTags : List Char → List Char
  | [] => []
  | c :: rest =>
    if c = '<' ∧ '>' ∈ rest then removeTags (dropThroughGt rest)
    else c :: removeTags rest
termination_by l => l.length
decreasing_by
  · simp only [List.length_cons]
    exact Nat.lt_succ_of_le (dropThroughGt_length_le _)
  · simp only [List.length_cons]
    exact Nat.lt_succ_self _

/-- The sanitization pass of `VideoUpload.sanitize_description` and the
inline `re.sub(r'<[^>]*>', '', ...)` in `upload_video`. -/
def sanitizeText (s : String) : String := String.mk (removeTags s.data)

/-! ## Ingestion worker (`app/utils/video_queue.py`) -/

/-- `processing_status` of a video metadata record. -/
inductive Status where
  | pending
  | processing
  | completed
  | failed
deriving DecidableEq

/-- The fields of the video metadata record touched by the pipeline. -/
structure VideoRecord where
  playlist_url : String
  thumbnail_url : Option String
  duration : Option Rat
  processing_status : Status
  processing_error : Option String
  updated_at : Nat
deriving DecidableEq

/-- The record created by `upload_video` before enqueueing: `pending`,
`playlist_url` holding the raw-upload URL, thumbnail/duration null. -/
def createdRecord (rawUrl : String) (t : Nat) : VideoRecord :=
  ⟨rawUrl, none, none, .pending, none, t⟩

/-- The three `update_one` `$set` patches `_process_video` can issue. -/
inductive Update where
  | toProcessing
  | toCompleted (playlist_url : String) (thumbnail_url : Option String) (duration : Option Rat)
  | toFailed (error : String)
deriving DecidableEq

/-- Apply one `$set` patch at timestamp `now` (`updated_at` is bumped on
every transition; all other fields outside the patch are untouched). -/
def applyUpdate (now : Nat) (u : Update) (r : VideoRecord) : VideoRecord :=
  match u with
  | .toProcessing =>
    { r with processing_status := .processing, updated_at := now }
  | .toCompleted url thumb dur =>
    { r with playlist_url := url, thumbnail_url := thumb, duration := dur,
             processing_status := .completed, updated_at := now }
  | .toFailed e =>
    { r with processing_status := .failed, processing_error := some e, updated_at := now }

/-- `R2Storage.upload_hls_content` returns
`f"{self.public_url}/hls/{video_id}/master.m3u8"` on success. -/
def master_url (public_url video_id : String) : String :=
  public_url ++ "/hls/" ++ video_id ++ "/master.m3u8"

/-- `R2Storage.upload_file` for the thumbnail returns
`f"{self.public_url}/{uuid4()}_thumb_{video_id}.jpg"`. -/
def thumb_url (public_url uuid video_id : String) : String :=
  public_url ++ "/" ++ uuid ++ "_thumb_" ++ video_id ++ ".jpg"

/-- Outcomes of the external effects one `_process_video` job performs.
`download` is the `requests.get` + temp-file write (its error is the
caught exception's `str`); the probes feed `get_video_duration` /
`get_video_height`; `thumbnail` is `generate_thumbnail`'s best-effort
result; `encOutcome` drives the per-tier encodes; the uploads fail by
`ClientError` (carried message for the HLS case). -/
structure PipelineEnv where
  download : Except String Unit
  durationProbe : RunResult
  heightProbe : RunResult
  thumbnail : Option (List Nat)
  encOutcome : String → TierOutcome
  hlsUpload : Except String Unit
  thumbUpload : Except Unit Unit
  uuid : String

/-- The body of `_process_video` after the record is marked `processing`:
either the data for the `completed` patch, or the caught exception's
message for the `failed` patch. Mirrors the order of the source: download,
`process_video_to_hls` (duration and thumbnail are best-effort and never
raise; a `None` `hls_data` raises `"Failed to process video to HLS"`),
`upload_hls_content` (wraps `ClientError` in its own message),
`upload_file` for the thumbnail when one exists. -/
def pipelineOutcome (public_url video_id : String) (env : PipelineEnv) :
    Except String (String × Option String × Option Rat) :=
  match env.download with
  | .error e => .error e
  | .ok _ =>
    let dur := get_video_duration env.durationProbe
    match create_hls_streams env.heightProbe env.encOutcome with
    | none => .error "Failed to process video to HLS"
    | some _hls =>
      match env.hlsUpload with
      | .error e => .error ("Failed to upload HLS content to R2: " ++ e)
      | .ok _ =>
        match env.thumbnail with
        | none => .ok (master_url public_url video_id, none, dur)
        | some _bytes =>
          match env.thumbUpload with
          | .error _ => .error "Failed to upload file to R2"
          | .ok _ =>
            .ok (master_url public_url video_id,
                 some (thumb_url public_url env.uuid video_id), dur)

/-- The terminal `$set` patch a job issues. -/
def finalUpdate (public_url video_id : String) (env : PipelineEnv) : Update :=
  match pipelineOutcome public_url video_id env with
  | .ok (url, thumb, dur) => .toCompleted url thumb dur
  | .error e => .toFailed e

/-- The record right after the initial `processing` patch. -/
def jobMid (t : Nat) (r0 : VideoRecord) : VideoRecord :=
  applyUpdate t .toProcessing r0

/-- The record after the job's terminal patch. -/
def jobFinal (public_url video_id : String) (env : PipelineEnv)
    (r0 : VideoRecord) (t : Nat) : VideoRecord :=
  applyUpdate (t + 1) (finalUpdate public_url video_id env) (jobMid t r0)

/-- The successive states of a job's metadata record: initial, after the
`processing` patch, after the terminal patch. `_process_video` issues no
other write to the record. -/
def jobTrace (public_url video_id : String) (env : PipelineEnv)
    (r0 : VideoRecord) (t : Nat) : List VideoRecord :=
  [r0, jobMid t r0, jobFinal public_url video_id env r0 t]

/-- `r.processing_error` is a non-empty string. -/
def errorNonempty (r : VideoRecord) : Bool :=
  match r.processing_error with
  | some m => decide (m ≠ "")
  | none => false

/-! The document store, as the worker sees it: an association list from
video id to record. `_worker` pulls jobs off the `asyncio.Queue` in FIFO
order and `await`s `_process_video` to completion before the next `get`,
so the per-job patches of successive jobs never interleave. -/

abbrev DB := List (String × VideoRecord)

/-- `find_one` on the `videos` collection: the record stored under `vid`. -/
def dbGet : DB → String → Option VideoRecord
  | [], _ => none
  | (k, r) :: rest, vid => if vid = k then some r else dbGet rest vid

/-- Apply one patch to the record of `vid` (the `update_one` filter). -/
def dbApply (db : DB) (vid : String) (now : Nat) (u : Update) : DB :=
  db.map fun p => if p.1 = vid then (p.1, applyUpdate now u p.2) else p

/-- The database states the single worker produces while draining the
queue: for each job in order, the state after its `processing` patch and
the state after its terminal patch. -/
def workerRun (public_url : String) :
    List (String × PipelineEnv) → DB → Nat → List DB
  | [], _, _ => []
  | (vid, env) :: rest, db, t =>
    let s1 := dbApply db vid t .toProcessing
    let s2 := dbApply s1 vid (t + 1) (finalUpdate public_url vid env)
    s1 :: s2 :: workerRun public_url rest s2 (t + 2)

/-- All database states, starting from the initial one. -/
def workerTrace (public_url : String) (jobs : List (String × PipelineEnv))
    (db0 : DB) : List DB :=
  db0 :: workerRun public_url jobs db0 0

/-- The `processing_status` of `vid`'s record in a database state. -/
def statusIn (db : DB) (vid : String) : Option Status :=
  (dbGet db vid).map fun r => r.processing_status

/-! ## Blob deletion (`app/utils/storage.py`, `app/utils/deletion_queue.py`) -/

/-- The S3 client as the deletion paths see it: `delete_object` and
`list_objects_v2` either succeed or raise `ClientError` (the `.error`
case — the only exception these methods are documented to raise and the
only one the source catches). -/
structure S3Env where
  deleteObject : String → Except Unit Unit
  listObjects : String → Except Unit (List String)

/-- `R2Storage.delete_file`: key is `file_url.split('/')[-1]`; a caught
`ClientError` yields `False`, success yields `True`. -/
def delete_file (env : S3Env) (file_url : String) : Bool :=
  match env.deleteObject (String.mk ((splitOnChar '/' file_url.data).getLastD [])) with
  | .ok _ => true
  | .error _ => false

/-- The video id extracted by `delete_hls_content`: the element right
after the first `'hls'` in `playlist_url.split('/')`, when there is one. -/
def hlsVideoId (key : List Char) : List (List Char) → Option (List Char)
  | [] => none
  | p :: rest => if p = key then rest.head? else hlsVideoId key rest

/-- The delete loop over the listed objects: the first `ClientError`
aborts through the `except` and yields `False`. -/
def deleteAll (env : S3Env) : List String → Bool
  | [] => true
  | k :: rest =>
    match env.deleteObject k with
    | .error _ => false
    | .ok _ => deleteAll env rest

/-- `R2Storage.delete_hls_content`: parse the video id out of the URL
(returning `True` without any S3 call when there is none), list
`hls/{video_id}/` and delete everything listed; `ClientError` anywhere
yields `False`. -/
def delete_hls_content (env : S3Env) (playlist_url : String) : Bool :=
  match hlsVideoId "hls".data (splitOnChar '/' playlist_url.data) with
  | none => true
  | some vid =>
    match env.listObjects ("hls/" ++ String.mk vid ++ "/") with
    | .error _ => false
    | .ok keys => deleteAll env keys

/-- `DeletionQueue._delete_file_with_semaphore`: dispatch on `file_type`. -/
def runDeletionTask (env : S3Env) (file_type file_url : String) : Bool :=
  if file_type = "hls" then delete_hls_content env file_url
  else delete_file env file_url

/-- The deletion worker's effect on a drained queue: each enqueued task is
executed exactly once, whatever its result — nothing re-enqueues. -/
def deletionWorkerRun (env : S3Env) (tasks : List (String × String)) :
    List ((String × String) × Bool) :=
  tasks.map fun t => (t, runDeletionTask env t.1 t.2)

/-! ## Helper lemmas -/

theorem isEmpty_false_of_ne_nil {α : Type} {l : List α} (h : l ≠ []) :
    l.isEmpty = false := by
  cases l
  · exact absurd rfl h
  · rfl

theorem append_ne_empty_left (s t : String) (hs : s ≠ "") : s ++ t ≠ "" := by
  intro h
  apply hs
  have h2 := congrArg String.data h
  rw [String.data_append] at h2
  rcases List.append_eq_nil.mp h2 with ⟨h3, _⟩
  exact String.ext h3

theorem append_ne_empty_right (s t : String) (ht : t ≠ "") : s ++ t ≠ "" := by
  intro h
  apply ht
  have h2 := congrArg String.data h
  rw [String.data_append] at h2
  rcases List.append_eq_nil.mp h2 with ⟨_, h4⟩
  exact String.ext h4

theorem mem_of_mem_dropThroughGt {x : Char} :
    ∀ l : List Char, x ∈ dropThroughGt l → x ∈ l := by
  intro l
  induction l with
  | nil => simp [dropThroughGt]
  | cons c rest ih =>
    simp only [dropThroughGt]
    split
    · exact fun h => List.mem_cons_of_mem _ h
    · exact fun h => List.mem_cons_of_mem _ (ih h)

theorem mem_of_mem_removeTags {x : Char} :
    ∀ l : List Char, x ∈ removeTags l → x ∈ l := by
  intro l
  induction l using removeTags.induct with
  | case1 => simp [removeTags]
  | case2 c rest h ih =>
    rw [removeTags, if_pos h]
    exact fun hm => List.mem_cons_of_mem _ (mem_of_mem_dropThroughGt _ (ih hm))
  | case3 c rest h ih =>
    rw [removeTags, if_neg h]
    intro hm
    rcases List.mem_cons.mp hm with rfl | hm
    · exact List.mem_cons_self _ _
    · exact List.mem_cons_of_mem _ (ih hm)

/-- No remaining `'<'` is followed by a `'>'`: the sanitized form. -/
def noTagAhead : List Char → Prop
  | [] => True
  | c :: rest => (c = '<' → '>' ∉ rest) ∧ noTagAhead rest

theorem noTagAhead_removeTags : ∀ l : List Char, noTagAhead (removeTags l) := by
  intro l
  induction l using removeTags.induct with
  | case1 => simp [removeTags, noTagAhead]
  | case2 c rest h ih => rw [removeTags, if_pos h]; exact ih
  | case3 c rest h ih =>
    rw [removeTags, if_neg h]
    refine ⟨fun hc hgt => ?_, ih⟩
    subst hc
    exact (not_and.mp h rfl) (mem_of_mem_removeTags _ hgt)

theorem removeTags_of_noTagAhead : ∀ l : List Char, noTagAhead l → removeTags l = l := by
  intro l
  induction l with
  | nil => exact fun _ => by rw [removeTags]
  | cons c rest ih =>
    intro ⟨hc, hrest⟩
    rw [removeTags, if_neg (fun hand => hc hand.1 hand.2)]
    rw [ih hrest]

theorem runTiers_no_raise (env : String → TierOutcome) :
    ∀ ts : List (String × Quality), (∀ p ∈ ts, (env p.1).isRaised = false) →
      runTiers env ts = some (ts.filterMap (okData env),
        (successfulTiers env ts).flatMap fun p =>
          [streamInfLine p.2, p.1 ++ "/playlist.m3u8"]) := by
  intro ts
  induction ts with
  | nil => intro _; rfl
  | cons p rest ih =>
    intro h
    obtain ⟨name, q⟩ := p
    have hr := h _ (List.mem_cons_self _ _)
    have htail := ih fun p hp => h p (List.mem_cons_of_mem _ hp)
    cases he : env name with
    | raised m => rw [he] at hr; simp [TierOutcome.isRaised] at hr
    | nonzeroExit =>
      simp [runTiers, he, htail, successfulTiers, okData, List.filterMap_cons,
        List.filter_cons, TierOutcome.isOk]
    | ok pl segs =>
      simp [runTiers, he, htail, successfulTiers, okData, List.filterMap_cons,
        List.filter_cons, TierOutcome.isOk, List.flatMap_cons]

theorem runTiers_none_of_raised (env : String → TierOutcome) :
    ∀ ts : List (String × Quality), (∃ p ∈ ts, (env p.1).isRaised = true) →
      runTiers env ts = none := by
  intro ts
  induction ts with
  | nil => rintro ⟨p, hp, _⟩; cases hp
  | cons q rest ih =>
    rintro ⟨p, hp, hr⟩
    obtain ⟨name, qq⟩ := q
    rcases List.mem_cons.mp hp with rfl | hp2
    · cases he : env name with
      | raised m => simp [runTiers, he]
      | nonzeroExit => rw [he] at hr; simp [TierOutcome.isRaised] at hr
      | ok a b => rw [he] at hr; simp [TierOutcome.isRaised] at hr
    · have hrest := ih ⟨p, hp2, hr⟩
      cases he : env name with
      | raised m => simp [runTiers, he]
      | nonzeroExit => simp [runTiers, he, hrest]
      | ok a b => simp [runTiers, he, hrest]

theorem filterMap_okData_eq_nil_iff (env : String → TierOutcome) :
    ∀ ts : List (String × Quality),
      ts.filterMap (okData env) = [] ↔ successfulTiers env ts = [] := by
  intro ts
  induction ts with
  | nil => simp [successfulTiers]
  | cons p rest ih =>
    cases he : env p.1 with
    | ok pl segs =>
      simp [successfulTiers, okData, he, List.filterMap_cons, List.filter_cons,
        TierOutcome.isOk]
    | nonzeroExit =>
      simpa [successfulTiers, okData, he, List.filterMap_cons, List.filter_cons,
        TierOutcome.isOk] using ih
    | raised m =>
      simpa [successfulTiers, okData, he, List.filterMap_cons, List.filter_cons,
        TierOutcome.isOk] using ih

theorem pipelineOutcome_error_cases (pu vid : String) (env : PipelineEnv) (e : String)
    (h : pipelineOutcome pu vid env = .error e) :
    env.download = .error e ∨ e = "Failed to process video to HLS" ∨
    (∃ e0, e = "Failed to upload HLS content to R2: " ++ e0) ∨
    e = "Failed to upload file to R2" := by
  unfold pipelineOutcome at h
  cases hd : env.download with
  | error e0 =>
    rw [hd] at h
    injection h with he
    exact Or.inl (congrArg Except.error he)

  | ok u =>
    rw [hd] at h
    cases hc : create_hls_streams env.heightProbe env.encOutcome with
    | none =>
      rw [hc] at h
      injection h with he
      exact Or.inr (Or.inl he.symm)
    | some hls =>
      rw [hc] at h
      cases hu : env.hlsUpload with
      | error e1 =>
        rw [hu] at h
        injection h with he
        exact Or.inr (Or.inr (Or.inl ⟨e1, he.symm⟩))
      | ok u1 =>
        rw [hu] at h
        cases ht : env.thumbnail with
        | none => rw [ht] at h; exact absurd h (by simp)
        | some b =>
          rw [ht] at h
          cases htu : env.thumbUpload with
          | error u2 =>
            rw [htu] at h
            injection h with he
            exact Or.inr (Or.inr (Or.inr he.symm))
          | ok u2 => rw [htu] at h; exact absurd h (by simp)

theorem pipelineOutcome_error_ne_empty (pu vid : String) (env : PipelineEnv) (e : String)
    (hdl : ∀ e0, env.download = .error e0 → e0 ≠ "")
    (h : pipelineOutcome pu vid env = .error e) : e ≠ "" := by
  rcases pipelineOutcome_error_cases pu vid env e h with hd | rfl | ⟨e0, rfl⟩ | rfl
  · exact hdl e hd
  · decide
  · exact append_ne_empty_left _ _ (by decide)
  · decide

theorem pipelineOutcome_ok_url (pu vid : String) (env : PipelineEnv)
    (v : String × Option String × Option Rat)
    (h : pipelineOutcome pu vid env = .ok v) : v.1 = master_url pu vid := by
  unfold pipelineOutcome at h
  cases hd : env.download with
  | error e0 => rw [hd] at h; exact absurd h (by simp)
  | ok u =>
    rw [hd] at h
    cases hc : create_hls_streams env.heightProbe env.encOutcome with
    | none => rw [hc] at h; exact absurd h (by simp)
    | some hls =>
      rw [hc] at h
      cases hu : env.hlsUpload with
      | error e1 => rw [hu] at h; exact absurd h (by simp)
      | ok u1 =>
        rw [hu] at h
        cases ht : env.thumbnail with
        | none => rw [ht] at h; injection h with he; rw [← he]
        | some b =>
          rw [ht] at h
          cases htu : env.thumbUpload with
          | error u2 => rw [htu] at h; exact absurd h (by simp)
          | ok u2 => rw [htu] at h; injection h with he; rw [← he]

theorem applyFinal_status (pu vid : String) (env : PipelineEnv) (r : VideoRecord) (now : Nat) :
    (applyUpdate now (finalUpdate pu vid env) r).processing_status = Status.completed ∨
    (applyUpdate now (finalUpdate pu vid env) r).processing_status = Status.failed := by
  unfold finalUpdate
  cases pipelineOutcome pu vid env with
  | ok v => obtain ⟨url, th, dur⟩ := v; exact Or.inl rfl
  | error e => exact Or.inr rfl

theorem dbGet_cons (k : String) (r : VideoRecord) (rest : DB) (v : String) :
    dbGet ((k, r) :: rest) v = if v = k then some r else dbGet rest v := rfl

theorem dbApply_cons (k : String) (r : VideoRecord) (rest : DB) (vid : String)
    (now : Nat) (u : Update) :
    dbApply ((k, r) :: rest) vid now u =
      (if k = vid then (k, applyUpdate now u r) else (k, r)) :: dbApply rest vid now u := by
  by_cases hp : k = vid <;> simp [dbApply, hp]

theorem dbGet_dbApply_self (vid : String) (now : Nat) (u : Update) :
    ∀ db : DB, dbGet (dbApply db vid now u) vid =
      (dbGet db vid).map (applyUpdate now u) := by
  intro db
  induction db with
  | nil => rfl
  | cons p rest ih =>
    obtain ⟨k, r⟩ := p
    rw [dbApply_cons]
    by_cases hp : k = vid
    · subst hp
      rw [if_pos rfl, dbGet_cons, dbGet_cons, if_pos rfl, if_pos rfl]
      rfl
    · rw [if_neg hp, dbGet_cons, dbGet_cons, if_neg (Ne.symm hp), if_neg (Ne.symm hp)]
      exact ih

theorem dbGet_dbApply_ne (w vid : String) (now : Nat) (u : Update) (hne : w ≠ vid) :
    ∀ db : DB, dbGet (dbApply db vid now u) w = dbGet db w := by
  intro db
  induction db with
  | nil => rfl
  | cons p rest ih =>
    obtain ⟨k, r⟩ := p
    rw [dbApply_cons]
    by_cases hp : k = vid
    · subst hp
      rw [if_pos rfl, dbGet_cons, dbGet_cons, if_neg hne, if_neg hne]
      exact ih
    · by_cases hw : w = k
      · subst hw
        rw [if_neg hp, dbGet_cons, dbGet_cons, if_pos rfl, if_pos rfl]
      · rw [if_neg hp, dbGet_cons, dbGet_cons, if_neg hw, if_neg hw]
        exact ih

theorem statusIn_dbApply_self (db : DB) (vid : String) (now : Nat) (u : Update) :
    statusIn (dbApply db vid now u) vid =
      (dbGet db vid).map fun r => (applyUpdate now u r).processing_status := by
  rw [statusIn, dbGet_dbApply_self, Option.map_map]
  rfl

theorem statusIn_dbApply_ne (db : DB) (w vid : String) (now : Nat) (u : Update)
    (hne : w ≠ vid) : statusIn (dbApply db vid now u) w = statusIn db w := by
  rw [statusIn, dbGet_dbApply_ne w vid now u hne]
  rfl

theorem deleteAll_eq_false_iff (env : S3Env) :
    ∀ keys : List String,
      deleteAll env keys = false ↔ ∃ k ∈ keys, env.deleteObject k = .error () := by
  intro keys
  induction keys with
  | nil => simp [deleteAll]
  | cons k rest ih =>
    cases hk : env.deleteObject k with
    | error u => obtain ⟨⟩ := u; simp [deleteAll, hk]
    | ok u => obtain ⟨⟩ := u; simpa [deleteAll, hk] using ih

/-! ## Concrete environments used to instantiate the theorems -/

/-- A probe whose subprocess hit the 30s timeout. -/
def probeFail : RunResult := ⟨true, 0, ""⟩

/-- A job whose raw-video download raises. -/
def envDlFail : PipelineEnv :=
  ⟨Except.error "connection refused", probeFail, probeFail, none,
   fun _ => TierOutcome.nonzeroExit, Except.ok (), Except.ok (), "u0"⟩

/-- A job whose probes fail but whose single fallback encode and uploads
succeed. -/
def envEncOk : PipelineEnv :=
  ⟨Except.ok (), probeFail, ⟨false, 0, "360"⟩, none,
   fun _ => TierOutcome.ok "segs" [], Except.ok (), Except.ok (), "u0"⟩

/-- A job whose every tier encode exits non-zero. -/
def envEncFail : PipelineEnv :=
  ⟨Except.ok (), probeFail, ⟨false, 0, "480"⟩, none,
   fun _ => TierOutcome.nonzeroExit, Except.ok (), Except.ok (), "u0"⟩

/-! ## The claims -/

/-- C1: every job's metadata record moves `pending → processing →
{completed | failed}` in exactly that order — the worker first issues the
`processing` patch, the only exit from `processing` is the single terminal
patch, `pending` is never re-entered, and in the `failed` case
`processing_error` carries a non-empty diagnostic (given that the caught
download exception stringifies non-empty; every internally raised message
is a non-empty literal). -/
theorem C1_pipeline_state_machine (pu vid : String) (env : PipelineEnv)
    (r0 : VideoRecord) (t : Nat)
    (h0 : r0.processing_status = Status.pending)
    (hdl : ∀ e, env.download = Except.error e → e ≠ "") :
    (jobTrace pu vid env r0 t).map (fun r => r.processing_status) =
      [Status.pending, Status.processing, (jobFinal pu vid env r0 t).processing_status]
    ∧ ((jobFinal pu vid env r0 t).processing_status = Status.completed ∨
       ((jobFinal pu vid env r0 t).processing_status = Status.failed ∧
        errorNonempty (jobFinal pu vid env r0 t) = true)) := by
  constructor
  · simp [jobTrace, jobMid, applyUpdate, h0]
  · unfold jobFinal finalUpdate
    cases ho : pipelineOutcome pu vid env with
    | ok v => obtain ⟨url, th, dur⟩ := v; exact Or.inl rfl
    | error e =>
      refine Or.inr ⟨rfl, ?_⟩
      have hne := pipelineOutcome_error_ne_empty pu vid env e hdl ho
      simp [applyUpdate, jobMid, errorNonempty, hne]

/-- C1 witness: a job whose download raises `"connection refused"`. -/
theorem C1_witness :
    (jobTrace "https://pub" "v1" envDlFail (createdRecord "https://pub/raw.mp4" 0) 3).map
        (fun r => r.processing_status) =
      [Status.pending, Status.processing,
       (jobFinal "https://pub" "v1" envDlFail (createdRecord "https://pub/raw.mp4" 0) 3).processing_status]
    ∧ ((jobFinal "https://pub" "v1" envDlFail (createdRecord "https://pub/raw.mp4" 0) 3).processing_status = Status.completed ∨
       ((jobFinal "https://pub" "v1" envDlFail (createdRecord "https://pub/raw.mp4" 0) 3).processing_status = Status.failed ∧
        errorNonempty (jobFinal "https://pub" "v1" envDlFail (createdRecord "https://pub/raw.mp4" 0) 3) = true)) :=
  C1_pipeline_state_machine "https://pub" "v1" envDlFail
    (createdRecord "https://pub/raw.mp4" 0) 3 rfl
    (by intro e he; injection he with h2; subst h2; decide)

/-- C2: the ingestion queue is FIFO and one-at-a-time — across the whole
worker trace of two back-to-back jobs, the second record stays `pending`
until the first record is terminal, and the two records are never both
`processing`. -/
theorem C2_fifo_one_at_a_time (pu v1 v2 : String) (e1 e2 : PipelineEnv)
    (r1 r2 : VideoRecord) (hne : v1 ≠ v2)
    (h1 : r1.processing_status = Status.pending)
    (h2 : r2.processing_status = Status.pending) :
    ∀ db ∈ workerTrace pu [(v1, e1), (v2, e2)] [(v1, r1), (v2, r2)],
      (¬ (statusIn db v1 = some Status.processing ∧
          statusIn db v2 = some Status.processing))
      ∧ (statusIn db v2 ≠ some Status.pending →
          statusIn db v1 = some Status.completed ∨
          statusIn db v1 = some Status.failed) := by
  intro db hdb
  set db0 : DB := [(v1, r1), (v2, r2)] with hdb0
  set s1 := dbApply db0 v1 0 Update.toProcessing with hs1
  set s2 := dbApply s1 v1 1 (finalUpdate pu v1 e1) with hs2
  set s3 := dbApply s2 v2 2 Update.toProcessing with hs3
  set s4 := dbApply s3 v2 3 (finalUpdate pu v2 e2) with hs4
  have htr : workerTrace pu [(v1, e1), (v2, e2)] db0 = [db0, s1, s2, s3, s4] := rfl
  have g0v1 : dbGet db0 v1 = some r1 := by
    rw [hdb0, dbGet_cons, if_pos rfl]
  have g0v2 : dbGet db0 v2 = some r2 := by
    rw [hdb0, dbGet_cons, if_neg (Ne.symm hne), dbGet_cons, if_pos rfl]
  have s0v1 : statusIn db0 v1 = some Status.pending := by
    rw [statusIn, g0v1, Option.map_some', h1]
  have s0v2 : statusIn db0 v2 = some Status.pending := by
    rw [statusIn, g0v2, Option.map_some', h2]
  have g1v1 : dbGet s1 v1 = some (applyUpdate 0 Update.toProcessing r1) := by
    rw [hs1, dbGet_dbApply_self, g0v1, Option.map_some']
  have s1v1 : statusIn s1 v1 = some Status.processing := by
    rw [statusIn, g1v1, Option.map_some']
    rfl
  have s1v2 : statusIn s1 v2 = some Status.pending := by
    rw [hs1, statusIn_dbApply_ne _ _ _ _ _ (Ne.symm hne)]
    exact s0v2
  have s2v1 : statusIn s2 v1 = some Status.completed ∨
      statusIn s2 v1 = some Status.failed := by
    rw [hs2, statusIn_dbApply_self, g1v1, Option.map_some']
    rcases applyFinal_status pu v1 e1 (applyUpdate 0 Update.toProcessing r1) 1 with hc | hc
    · exact Or.inl (by rw [hc])
    · exact Or.inr (by rw [hc])
  have s2v2 : statusIn s2 v2 = some Status.pending := by
    rw [hs2, statusIn_dbApply_ne _ _ _ _ _ (Ne.symm hne)]
    exact s1v2
  have g2v2 : dbGet s2 v2 = some r2 := by
    rw [hs2, dbGet_dbApply_ne _ _ _ _ (Ne.symm hne),
        hs1, dbGet_dbApply_ne _ _ _ _ (Ne.symm hne)]
    exact g0v2
  have s3v1 : statusIn s3 v1 = some Status.completed ∨
      statusIn s3 v1 = some Status.failed := by
    rw [hs3, statusIn_dbApply_ne _ _ _ _ _ hne]
    exact s2v1
  have s3v2 : statusIn s3 v2 = some Status.processing := by
    rw [hs3, statusIn_dbApply_self, g2v2, Option.map_some']
    rfl
  have g3v2 : dbGet s3 v2 = some (applyUpdate 2 Update.toProcessing r2) := by
    rw [hs3, dbGet_dbApply_self, g2v2, Option.map_some']
  have s4v1 : statusIn s4 v1 = some Status.completed ∨
      statusIn s4 v1 = some Status.failed := by
    rw [hs4, statusIn_dbApply_ne _ _ _ _ _ hne]
    exact s3v1
  have s4v2 : statusIn s4 v2 = some Status.completed ∨
      statusIn s4 v2 = some Status.failed := by
    rw [hs4, statusIn_dbApply_self, g3v2, Option.map_some']
    rcases applyFinal_status pu v2 e2 (applyUpdate 2 Update.toProcessing r2) 3 with hc | hc
    · exact Or.inl (by rw [hc])
    · exact Or.inr (by rw [hc])
  rw [htr] at hdb
  simp only [List.mem_cons, List.not_mem_nil, or_false] at hdb
  rcases hdb with rfl | rfl | rfl | rfl | rfl
  · exact ⟨fun hA => absurd (s0v1.symm.trans hA.1) (by decide),
           fun hB => absurd s0v2 hB⟩
  · exact ⟨fun hA => absurd (s1v2.symm.trans hA.2) (by decide),
           fun hB => absurd s1v2 hB⟩
  · exact ⟨fun hA => absurd (s2v2.symm.trans hA.2) (by decide),
           fun hB => absurd s2v2 hB⟩
  · refine ⟨fun hA => ?_, fun _ => s3v1⟩
    rcases s3v1 with hc | hc
    · exact absurd (hc.symm.trans hA.1) (by decide)
    · exact absurd (hc.symm.trans hA.1) (by decide)
  · refine ⟨fun hA => ?_, fun _ => s4v1⟩
    rcases s4v2 with hc | hc
    · exact absurd (hc.symm.trans hA.2) (by decide)
    · exact absurd (hc.symm.trans hA.2) (by decide)

/-- C2 witness: two concrete back-to-back jobs; in the database state where
the second job is `processing`, the first job's record is terminal. -/
theorem C2_witness :
    statusIn ((workerTrace "https://pub" [("v1", envDlFail), ("v2", envEncOk)]
        [("v1", createdRecord "r1" 0), ("v2", createdRecord "r2" 0)]).getD 3 []) "v1" =
      some Status.completed ∨
    statusIn ((workerTrace "https://pub" [("v1", envDlFail), ("v2", envEncOk)]
        [("v1", createdRecord "r1" 0), ("v2", createdRecord "r2" 0)]).getD 3 []) "v1" =
      some Status.failed := by
  have h := C2_fifo_one_at_a_time "https://pub" "v1" "v2" envDlFail envEncOk
    (createdRecord "r1" 0) (createdRecord "r2" 0) (by decide) rfl rfl
  exact (h _ (by decide)).2 (by decide)

/-- C3: when the height probe yields `h`, a tier is selected exactly when
`h` is at least its target height; when no tier qualifies the selection is
exactly the 360p fallback, so it is never empty; a source at least 1080
tall selects all four tiers and a 360-tall source exactly the 360p tier. -/
theorem C3_tier_selection (h : Nat) :
    ((∃ p ∈ get_qualities, p.2.height ≤ h) →
      available_qualities (some h) = get_qualities.filter fun p => decide (p.2.height ≤ h))
    ∧ ((∀ p ∈ get_qualities, ¬ p.2.height ≤ h) →
      available_qualities (some h) = [("360p", q360)])
    ∧ available_qualities (some h) ≠ []
    ∧ (1080 ≤ h → available_qualities (some h) = get_qualities)
    ∧ (h = 360 → available_qualities (some h) = [("360p", q360)]) := by
  refine ⟨?_, ?_, ?_, ?_, ?_⟩
  · rintro ⟨p, hp, hle⟩
    have h360 : 360 ≤ h := by
      simp only [get_qualities, List.mem_cons, List.not_mem_nil, or_false] at hp
      rcases hp with rfl | rfl | rfl | rfl <;>
        simp only [q1080, q720, q480, q360] at hle <;> omega
    have h0 : h ≠ 0 := by omega
    have hcong : get_qualities.filter (tierKeep (some h)) =
        get_qualities.filter fun p => decide (p.2.height ≤ h) := by
      refine List.filter_congr ?_
      intro q _
      simp [tierKeep, h0]
    have hmem : ("360p", q360) ∈ get_qualities.filter
        fun p => decide (p.2.height ≤ h) := by
      refine List.mem_filter.mpr ⟨by simp [get_qualities], ?_⟩
      simpa [q360] using h360
    show (if (get_qualities.filter (tierKeep (some h))).isEmpty
          then [("360p", q360)]
          else get_qualities.filter (tierKeep (some h))) =
        get_qualities.filter fun p => decide (p.2.height ≤ h)
    rw [hcong, isEmpty_false_of_ne_nil (List.ne_nil_of_mem hmem)]
    rfl
  · intro hall
    have hfilter : get_qualities.filter (tierKeep (some h)) = [] := by
      refine List.filter_eq_nil_iff.mpr ?_
      intro q hq
      simp only [tierKeep, Bool.and_eq_true, decide_eq_true_eq, not_and]
      exact fun _ => hall q hq
    show (if (get_qualities.filter (tierKeep (some h))).isEmpty
          then [("360p", q360)]
          else get_qualities.filter (tierKeep (some h))) = [("360p", q360)]
    rw [hfilter]
    rfl
  · have hgen : ∀ l : List (String × Quality),
        (if l.isEmpty then [("360p", q360)] else l) ≠ [] := by
      intro l
      split
      · simp
      · next hF =>
        intro hc
        rw [hc] at hF
        exact hF rfl
    exact hgen _
  · intro h1080
    have h0 : h ≠ 0 := by omega
    have hcong : get_qualities.filter (tierKeep (some h)) = get_qualities := by
      refine List.filter_eq_self.mpr ?_
      intro q hq
      simp only [get_qualities, List.mem_cons, List.not_mem_nil, or_false] at hq
      rcases hq with rfl | rfl | rfl | rfl <;>
        simp only [tierKeep, q1080, q720, q480, q360, Bool.and_eq_true,
          decide_eq_true_eq] <;>
        exact ⟨h0, by omega⟩
    show (if (get_qualities.filter (tierKeep (some h))).isEmpty
          then [("360p", q360)]
          else get_qualities.filter (tierKeep (some h))) = get_qualities
    rw [hcong]
    rfl
  · rintro rfl
    decide

/-- C3 witness: a 1200-tall source selects all four tiers; a 640×360
source selects exactly the 360p tier. -/
theorem C3_witness :
    available_qualities (some 1200) = get_qualities ∧
    available_qualities (some 360) = [("360p", q360)] :=
  ⟨(C3_tier_selection 1200).2.2.2.1 (by omega),
   (C3_tier_selection 360).2.2.2.2 rfl⟩

/-- C4: provided no tier encode raises, the master manifest is exactly the
two header lines followed by one `#EXT-X-STREAM-INF` line (BANDWIDTH =
bitrate in bits/s, RESOLUTION = width×height) plus the relative
sub-manifest path per successful tier, in processing order (descending
resolution), and the playlists map holds exactly the successful tiers. -/
theorem C4_master_manifest (hp : RunResult) (env : String → TierOutcome) :
    ∀ hls, create_hls_streams hp env = some hls →
      hls.master_playlist = String.intercalate "\n"
        ("#EXTM3U" :: "#EXT-X-VERSION:3" ::
          ((successfulTiers env (available_qualities (get_video_height hp))).flatMap
            fun p => [streamInfLine p.2, p.1 ++ "/playlist.m3u8"]))
      ∧ hls.playlists =
          (available_qualities (get_video_height hp)).filterMap (okData env) := by
  intro hls hsome
  have hnr : ∀ p ∈ available_qualities (get_video_height hp),
      (env p.1).isRaised = false := by
    by_contra hcon
    push_neg at hcon
    obtain ⟨p, hp2, hr⟩ := hcon
    have hr2 : (env p.1).isRaised = true := by
      cases hb : (env p.1).isRaised
      · exact absurd hb hr
      · rfl
    have hnone : create_hls_streams hp env = none := by
      unfold create_hls_streams
      rw [runTiers_none_of_raised env _ ⟨p, hp2, hr2⟩]
    rw [hnone] at hsome
    cases hsome
  have hch : create_hls_streams hp env =
      if ((available_qualities (get_video_height hp)).filterMap (okData env)).isEmpty
      then none
      else some ⟨String.intercalate "\n"
          ("#EXTM3U" :: "#EXT-X-VERSION:3" ::
            ((successfulTiers env (available_qualities (get_video_height hp))).flatMap
              fun p => [streamInfLine p.2, p.1 ++ "/playlist.m3u8"])),
          (available_qualities (get_video_height hp)).filterMap (okData env)⟩ := by
    unfold create_hls_streams
    rw [runTiers_no_raise env _ hnr]
  rw [hch] at hsome
  split at hsome
  · exact absurd hsome (by simp)
  · injection hsome with he
    rw [← he]
    exact ⟨rfl, rfl⟩

/-- C4 witness: a 720-tall source with every encode succeeding. -/
theorem C4_witness :
    (create_hls_streams ⟨false, 0, "720"⟩ (fun _ => TierOutcome.ok "pl" [])).map
        (fun d => d.master_playlist) =
      some ("#EXTM3U\n#EXT-X-VERSION:3\n#EXT-X-STREAM-INF:BANDWIDTH=1800000,RESOLUTION=1280x720\n720p/playlist.m3u8\n#EXT-X-STREAM-INF:BANDWIDTH=900000,RESOLUTION=854x480\n480p/playlist.m3u8\n#EXT-X-STREAM-INF:BANDWIDTH=500000,RESOLUTION=640x360\n360p/playlist.m3u8") := by
  have h := C4_master_manifest ⟨false, 0, "720"⟩ (fun _ => TierOutcome.ok "pl" [])
  have hc : create_hls_streams ⟨false, 0, "720"⟩ (fun _ => TierOutcome.ok "pl" []) =
      some ⟨"#EXTM3U\n#EXT-X-VERSION:3\n#EXT-X-STREAM-INF:BANDWIDTH=1800000,RESOLUTION=1280x720\n720p/playlist.m3u8\n#EXT-X-STREAM-INF:BANDWIDTH=900000,RESOLUTION=854x480\n480p/playlist.m3u8\n#EXT-X-STREAM-INF:BANDWIDTH=500000,RESOLUTION=640x360\n360p/playlist.m3u8",
        [("720p", ⟨"pl", []⟩), ("480p", ⟨"pl", []⟩), ("360p", ⟨"pl", []⟩)]⟩ := by
    rfl
  have h2 := (h _ hc).1
  rw [hc, Option.map_some', h2]
  rfl

/-- C5 is false as stated: with a 1080-tall source whose 1080p encode
succeeds but whose 720p encode raises `TimeoutExpired`, one tier encoded
successfully and yet `create_hls_streams` returns `None` — the raise
escapes the per-tier flow and the outer `except` discards the partial
artifact. -/
theorem C5_counterexample :
    create_hls_streams ⟨false, 0, "1080"⟩
        (fun q => if q = "1080p" then TierOutcome.ok "pl" []
                  else TierOutcome.raised "TimeoutExpired") = none
    ∧ ("1080p", q1080) ∈ available_qualities (get_video_height ⟨false, 0, "1080"⟩)
    ∧ ((fun q => if q = "1080p" then TierOutcome.ok "pl" []
                 else TierOutcome.raised "TimeoutExpired") "1080p").isOk = true :=
  ⟨rfl, by decide, rfl⟩

/-- C5 (amended): provided no tier encode raises (a raise — e.g. an
encode timeout — makes the whole operation return absent regardless of
earlier successes), `create_hls_streams` returns absent iff zero tiers
encode successfully, and on success its playlists hold exactly the
successful tiers; and whenever the result is absent the worker marks the
job `failed` with the non-empty diagnostic
`"Failed to process video to HLS"`. -/
theorem C5_partial_artifact (hp : RunResult) (env : String → TierOutcome)
    (hnr : ∀ p ∈ available_qualities (get_video_height hp), (env p.1).isRaised = false) :
    (create_hls_streams hp env = none ↔
      successfulTiers env (available_qualities (get_video_height hp)) = [])
    ∧ (∀ hls, create_hls_streams hp env = some hls →
        hls.playlists = (available_qualities (get_video_height hp)).filterMap (okData env))
    ∧ (∀ (pu vid : String) (penv : PipelineEnv) (r0 : VideoRecord) (t : Nat),
        penv.download = Except.ok () →
        penv.heightProbe = hp → penv.encOutcome = env →
        create_hls_streams hp env = none →
        (jobFinal pu vid penv r0 t).processing_status = Status.failed ∧
        (jobFinal pu vid penv r0 t).processing_error =
          some "Failed to process video to HLS" ∧
        errorNonempty (jobFinal pu vid penv r0 t) = true) := by
  have hch : create_hls_streams hp env =
      if ((available_qualities (get_video_height hp)).filterMap (okData env)).isEmpty
      then none
      else some ⟨String.intercalate "\n"
          ("#EXTM3U" :: "#EXT-X-VERSION:3" ::
            ((successfulTiers env (available_qualities (get_video_height hp))).flatMap
              fun p => [streamInfLine p.2, p.1 ++ "/playlist.m3u8"])),
          (available_qualities (get_video_height hp)).filterMap (okData env)⟩ := by
    unfold create_hls_streams
    rw [runTiers_no_raise env _ hnr]
  refine ⟨?_, ?_, ?_⟩
  · rw [hch]
    constructor
    · intro hnone
      split at hnone
      · next hemp =>
        exact (filterMap_okData_eq_nil_iff env _).mp (List.isEmpty_iff.mp hemp)
      · exact absurd hnone (by simp)
    · intro hsucc
      rw [if_pos]
      rw [List.isEmpty_iff]
      exact (filterMap_okData_eq_nil_iff env _).mpr hsucc
  · intro hls hsome
    rw [hch] at hsome
    split at hsome
    · exact absurd hsome (by simp)
    · injection hsome with he
      rw [← he]
  · intro pu vid penv r0 t hdl hh he hnone
    have hpo : pipelineOutcome pu vid penv = .error "Failed to process video to HLS" := by
      unfold pipelineOutcome
      rw [hdl, hh, he, hnone]
    unfold jobFinal finalUpdate
    rw [hpo]
    exact ⟨rfl, rfl, rfl⟩

/-- C5 witness: a 480-tall source whose every tier encode exits non-zero:
the result is absent and the concrete job is marked `failed` with the
fixed diagnostic. -/
theorem C5_witness :
    create_hls_streams ⟨false, 0, "480"⟩ (fun _ => TierOutcome.nonzeroExit) = none
    ∧ (jobFinal "https://pub" "v9" envEncFail (createdRecord "r9" 0) 1).processing_status
        = Status.failed
    ∧ (jobFinal "https://pub" "v9" envEncFail (createdRecord "r9" 0) 1).processing_error
        = some "Failed to process video to HLS" := by
  have h := C5_partial_artifact ⟨false, 0, "480"⟩ (fun _ => TierOutcome.nonzeroExit)
    (by decide)
  have hnone := h.1.mpr (by rfl)
  have h3 := h.2.2 "https://pub" "v9" envEncFail (createdRecord "r9" 0) 1 rfl rfl rfl hnone
  exact ⟨hnone, h3.1, h3.2.1⟩

/-- C6: duration extraction is total and best-effort — a timed-out probe,
a non-zero exit, or unparsable stripped stdout each yield `none` (never an
exception); and a job whose duration is absent but whose encode and
uploads succeed still completes, with `duration` recorded as null. -/
theorem C6_duration_best_effort :
    (∀ r : RunResult, r.timedOut = true → get_video_duration r = none)
    ∧ (∀ r : RunResult, r.returncode ≠ 0 → get_video_duration r = none)
    ∧ (∀ r : RunResult, parseFloat? (stripChars r.stdout.data) = none →
        get_video_duration r = none)
    ∧ (∀ (pu vid : String) (env : PipelineEnv) (r0 : VideoRecord) (t : Nat),
        env.download = Except.ok () →
        get_video_duration env.durationProbe = none →
        (∃ d, create_hls_streams env.heightProbe env.encOutcome = some d) →
        env.hlsUpload = Except.ok () →
        (env.thumbnail = none ∨ env.thumbUpload = Except.ok ()) →
        (jobFinal pu vid env r0 t).processing_status = Status.completed ∧
        (jobFinal pu vid env r0 t).duration = none) := by
  refine ⟨?_, ?_, ?_, ?_⟩
  · intro r hr
    simp [get_video_duration, hr]
  · intro r hr
    simp [get_video_duration, hr]
  · intro r hr
    simp [get_video_duration, hr]
  · intro pu vid env r0 t hd hdur hcs hup hth
    obtain ⟨d, hc⟩ := hcs
    have hpo : ∃ th, pipelineOutcome pu vid env =
        .ok (master_url pu vid, th, none) := by
      unfold pipelineOutcome
      rw [hd, hc, hup, hdur]
      cases hthm : env.thumbnail with
      | none => exact ⟨none, rfl⟩
      | some b =>
        rcases hth with hnone | hok
        · rw [hthm] at hnone; cases hnone
        · rw [hok]
          exact ⟨some (thumb_url pu env.uuid vid), rfl⟩
    obtain ⟨th, hpo⟩ := hpo
    unfold jobFinal finalUpdate
    rw [hpo]
    exact ⟨rfl, rfl⟩

/-- C6 witness: a timed-out duration probe on a job whose fallback encode
and uploads succeed. -/
theorem C6_witness :
    get_video_duration probeFail = none
    ∧ (jobFinal "https://pub" "v6" envEncOk (createdRecord "r6" 0) 1).processing_status
        = Status.completed
    ∧ (jobFinal "https://pub" "v6" envEncOk (createdRecord "r6" 0) 1).duration = none := by
  have h := C6_duration_best_effort
  have h4 := h.2.2.2 "https://pub" "v6" envEncOk (createdRecord "r6" 0) 1 rfl rfl
    ⟨_, rfl⟩ rfl (Or.inl rfl)
  exact ⟨h.1 probeFail rfl, h4.1, h4.2⟩

/-- C7: the deletion operations are best-effort — `delete_file` returns
`False` exactly when its single delete raises `ClientError` and
`delete_hls_content` returns `False` exactly when the listing or one of
the listed deletes raises `ClientError` (neither lets the exception
escape), and the deletion worker executes each enqueued task exactly once,
never retrying a failed one. -/
theorem C7_deletion_best_effort :
    (∀ (env : S3Env) (url : String),
      delete_file env url = false ↔
        env.deleteObject (String.mk ((splitOnChar '/' url.data).getLastD []))
          = .error ())
    ∧ (∀ (env : S3Env) (url : String),
        delete_hls_content env url = false ↔
          ∃ vid, hlsVideoId "hls".data (splitOnChar '/' url.data) = some vid ∧
            (env.listObjects ("hls/" ++ String.mk vid ++ "/") = .error () ∨
             ∃ keys, env.listObjects ("hls/" ++ String.mk vid ++ "/") = .ok keys ∧
               ∃ k ∈ keys, env.deleteObject k = .error ()))
    ∧ (∀ (env : S3Env) (tasks : List (String × String)),
        (deletionWorkerRun env tasks).map Prod.fst = tasks) := by
  refine ⟨?_, ?_, ?_⟩
  · intro env url
    unfold delete_file
    cases hd : env.deleteObject (String.mk ((splitOnChar '/' url.data).getLastD [])) with
    | error u => obtain ⟨⟩ := u; simp
    | ok u => obtain ⟨⟩ := u; simp
  · intro env url
    unfold delete_hls_content
    cases hv : hlsVideoId "hls".data (splitOnChar '/' url.data) with
    | none => simp
    | some vid =>
      cases hl : env.listObjects ("hls/" ++ String.mk vid ++ "/") with
      | error u => obtain ⟨⟩ := u; simp [hl]
      | ok keys => simp [hl, deleteAll_eq_false_iff]
  · intro env tasks
    induction tasks with
    | nil => rfl
    | cons t rest ih => simp [deletionWorkerRun] at ih ⊢; exact ih

/-- C8: the HTML-tag-removing sanitization pass applied to titles and
descriptions is idempotent — sanitizing twice equals sanitizing once. -/
theorem C8_sanitizer_idempotent (s : String) :
    sanitizeText (sanitizeText s) = sanitizeText s := by
  show String.mk (removeTags (removeTags s.data)) = String.mk (removeTags s.data)
  rw [removeTags_of_noTagAhead _ (noTagAhead_removeTags s.data)]

/-- C9: the `failed` patch touches only `processing_status`,
`processing_error` and `updated_at`, so `playlist_url`, `thumbnail_url`
and `duration` keep their prior values; across every state of a job
started from the upload-created record, `playlist_url` is the raw-upload
URL (pending/processing/failed) or the published master-manifest URL
(completed), and is never empty. -/
theorem C9_failed_frame (pu vid : String) (env : PipelineEnv) (rawUrl : String)
    (t0 t : Nat) (hraw : rawUrl ≠ "") :
    (∀ (r : VideoRecord) (now : Nat) (e : String),
      (applyUpdate now (Update.toFailed e) r).playlist_url = r.playlist_url ∧
      (applyUpdate now (Update.toFailed e) r).thumbnail_url = r.thumbnail_url ∧
      (applyUpdate now (Update.toFailed e) r).duration = r.duration ∧
      (applyUpdate now (Update.toFailed e) r).processing_status = Status.failed ∧
      (applyUpdate now (Update.toFailed e) r).processing_error = some e)
    ∧ (∀ s ∈ jobTrace pu vid env (createdRecord rawUrl t0) t,
        (s.playlist_url = rawUrl ∨
          (s.processing_status = Status.completed ∧
           s.playlist_url = master_url pu vid))
        ∧ s.playlist_url ≠ "") := by
  constructor
  · intro r now e
    exact ⟨rfl, rfl, rfl, rfl, rfl⟩
  · intro s hs
    have hmaster : master_url pu vid ≠ "" :=
      append_ne_empty_right _ _ (by decide)
    simp only [jobTrace, List.mem_cons, List.not_mem_nil, or_false] at hs
    rcases hs with rfl | rfl | rfl
    · exact ⟨Or.inl rfl, hraw⟩
    · exact ⟨Or.inl rfl, hraw⟩
    · unfold jobFinal finalUpdate
      cases ho : pipelineOutcome pu vid env with
      | error e => exact ⟨Or.inl rfl, hraw⟩
      | ok v =>
        obtain ⟨url, th, dur⟩ := v
        have hurl : url = master_url pu vid :=
          pipelineOutcome_ok_url pu vid env (url, th, dur) ho
        subst hurl
        exact ⟨Or.inr ⟨rfl, rfl⟩, hmaster⟩

/-- C9 witness: the terminal state of a concrete failed job still holds
the raw-upload URL, and it is non-empty. -/
theorem C9_witness :
    ((jobFinal "https://pub" "v1" envDlFail (createdRecord "https://pub/raw.mp4" 5) 9).playlist_url
        = "https://pub/raw.mp4" ∨
      ((jobFinal "https://pub" "v1" envDlFail (createdRecord "https://pub/raw.mp4" 5) 9).processing_status
          = Status.completed ∧
       (jobFinal "https://pub" "v1" envDlFail (createdRecord "https://pub/raw.mp4" 5) 9).playlist_url
          = master_url "https://pub" "v1"))
    ∧ (jobFinal "https://pub" "v1" envDlFail (createdRecord "https://pub/raw.mp4" 5) 9).playlist_url
        ≠ "" := by
  have h := (C9_failed_frame "https://pub" "v1" envDlFail "https://pub/raw.mp4" 5 9
    (by decide)).2
  exact h _ (by simp [jobTrace])

/-- C10 (implicit): when the height probe yields `None`, the tier filter
admits nothing and `create_hls_streams` encodes exactly the single 360p
fallback tier, regardless of the source's true resolution. -/
theorem C10_height_probe_fallback (r : RunResult) (hr : get_video_height r = none) :
    available_qualities (get_video_height r) = [("360p", q360)]
    ∧ (∀ (env : String → TierOutcome) (pl : String) (segs : List Segment),
        env "360p" = TierOutcome.ok pl segs →
        create_hls_streams r env =
          some ⟨String.intercalate "\n"
              ["#EXTM3U", "#EXT-X-VERSION:3", streamInfLine q360, "360p/playlist.m3u8"],
            [("360p", ⟨pl, segs⟩)]⟩) := by
  have hav : available_qualities (get_video_height r) = [("360p", q360)] := by
    rw [hr]
    rfl
  refine ⟨hav, ?_⟩
  intro env pl segs henv
  unfold create_hls_streams
  rw [hav]
  have hrt : runTiers env [("360p", q360)] =
      some ([("360p", ⟨pl, segs⟩)], [streamInfLine q360, "360p/playlist.m3u8"]) := by
    unfold runTiers
    rw [henv]
    rfl
  rw [hrt]
  rfl

/-- C10 witness: a timed-out height probe with a succeeding fallback
encode publishes exactly the 360p tier. -/
theorem C10_witness :
    available_qualities (get_video_height probeFail) = [("360p", q360)]
    ∧ create_hls_streams probeFail (fun _ => TierOutcome.ok "p6" []) =
        some ⟨String.intercalate "\n"
            ["#EXTM3U", "#EXT-X-VERSION:3", streamInfLine q360, "360p/playlist.m3u8"],
          [("360p", ⟨"p6", []⟩)]⟩ := by
  have h := C10_height_probe_fallback probeFail rfl
  exact ⟨h.1, h.2 (fun _ => TierOutcome.ok "p6" []) "p6" [] rfl⟩

end Kalesh
